import Mathlib

/-!
Shallow embedding of `examples/Status-MQTT-Homebridge/Status-MQTT-Homebridge.ino`
from the dscKeybusInterface repository.

The sketch bridges a DSC security panel (via the `dscKeybusInterface` library)
to an MQTT broker.  The parts embedded here are:

* the status-publishing section of `loop()` (lines 187-265): per-partition
  armed / alarm / fire publishing and the 8x8 bit-indexed zone scan;
* the access-code submission step of `loop()` (lines 181-184);
* the inbound command handler `mqttCallback` (lines 273-302);
* the reconnect logic of `mqttHandle` (lines 305-318);
* the topic-buffer size arithmetic of the fixed `char` buffers declared at
  lines 193, 213, 227 and 252.

Panel state (`dsc.*` fields) is modelled as a record of functions indexed by
the C array index; `mqtt.publish` is modelled as appending a
(topic, payload, retained) triple to an output list.  The boolean result of
`mqtt.publish` is discarded by the sketch; to make that visible, the embedded
publisher consults an environment `env : Nat -> Bool` giving the success of
the n-th publish of the cycle, and returns that boolean to its caller, which
(as in the source) ignores it.
-/

namespace DscMqtt

/-- `dscPartitions` is declared in the library header `src/dscKeybusInterface.h`,
which is not part of this tree.  Modelled from the spec: the spec's data model
says "one instance per partition index (1..N, N small, e.g. 8)" and the
sketch's own comments name topics `Partition1 ... Partition8` and
`Fire1 ... Fire8`. -/
def dscPartitions : Nat := 8

/-- Configuration constant, sketch line 129. -/
def mqttPartitionTopic : String := "dsc/Get/Partition"

/-- Configuration constant, sketch line 130. -/
def mqttZoneTopic : String := "dsc/Get/Zone"

/-- Configuration constant, sketch line 131. -/
def mqttFireTopic : String := "dsc/Get/Fire"

/-- Configuration constant, sketch line 132. -/
def mqttSubscribeTopic : String := "dsc/Set"

/-- One outbound MQTT message: `mqtt.publish(topic, payload, retained)`.
The two-argument `mqtt.publish(topic, payload)` of the PubSubClient library
defaults `retained` to `false`. -/
structure Msg where
  topic : String
  payload : String
  retained : Bool
deriving DecidableEq

/-- The panel-state snapshot owned by the `dsc` object, restricted to the
fields the sketch reads.  C arrays indexed by a byte become functions from
`Nat`; the zone bitsets `openZones[8]` / `openZonesChanged[8]` keep their
byte representation (`Nat` values, one per group, bits read with
`bitRead`). -/
structure DscState where
  partitionsArmed : Nat → Bool
  partitionsArmedAway : Nat → Bool
  partitionsArmedStay : Nat → Bool
  partitionsNoEntryDelay : Nat → Bool
  partitionsAlarm : Nat → Bool
  partitionsFire : Nat → Bool
  partitionsArmedChanged : Nat → Bool
  partitionsAlarmChanged : Nat → Bool
  partitionsFireChanged : Nat → Bool
  openZones : Nat → Nat
  openZonesChanged : Nat → Nat
  openZonesStatusChanged : Bool

/-- Arduino `bitRead(x, b)`. -/
def bitRead (x b : Nat) : Bool := Nat.testBit x b

/-- Arduino `bitWrite(x, b, 0)`, i.e. `x &= ~(1 << b)` on a `uint8_t`; the
byte-sized complement of `1 << b` is `255 ^^^ (1 <<< b)`. -/
def bitWriteZero (x b : Nat) : Nat := x &&& (255 ^^^ (1 <<< b))

/-- `mqtt.publish`: emits the message and reports success.  `out` carries the
messages published so far this cycle together with the running publish count;
`env n` is the broker's success verdict for the n-th publish.  Every call
site in the sketch discards the returned boolean. -/
def mqttPublish (env : Nat → Bool) (out : List Msg × Nat) (topic payload : String)
    (retained : Bool) : Bool × (List Msg × Nat) :=
  (env out.2, (out.1 ++ [⟨topic, payload, retained⟩], out.2 + 1))

/-- Sketch lines 189-206: armed-status publishing for one partition index. -/
def armedSection (env : Nat → Bool) (s : DscState) (out : List Msg × Nat)
    (partitionIndex : Nat) : DscState × (List Msg × Nat) :=
  if s.partitionsArmedChanged partitionIndex then
    let s' : DscState :=
      { s with partitionsArmedChanged :=
          Function.update s.partitionsArmedChanged partitionIndex false }
    let partitionPublishTopic : String :=
      mqttPartitionTopic ++ Nat.repr (partitionIndex + 1)
    if s'.partitionsArmed partitionIndex then
      if s'.partitionsArmedAway partitionIndex && s'.partitionsNoEntryDelay partitionIndex then
        (s', (mqttPublish env out partitionPublishTopic "NA" true).2)
      else if s'.partitionsArmedAway partitionIndex then
        (s', (mqttPublish env out partitionPublishTopic "AA" true).2)
      else if s'.partitionsArmedStay partitionIndex && s'.partitionsNoEntryDelay partitionIndex then
        (s', (mqttPublish env out partitionPublishTopic "NA" true).2)
      else if s'.partitionsArmedStay partitionIndex then
        (s', (mqttPublish env out partitionPublishTopic "SA" true).2)
      else (s', out)
    else (s', (mqttPublish env out partitionPublishTopic "D" true).2)
  else (s, out)

/-- Sketch lines 208-221: alarm-tripped publishing for one partition index. -/
def alarmSection (env : Nat → Bool) (s : DscState) (out : List Msg × Nat)
    (partitionIndex : Nat) : DscState × (List Msg × Nat) :=
  if s.partitionsAlarmChanged partitionIndex then
    let s' : DscState :=
      { s with partitionsAlarmChanged :=
          Function.update s.partitionsAlarmChanged partitionIndex false }
    if s'.partitionsAlarm partitionIndex then
      let partitionPublishTopic : String :=
        mqttPartitionTopic ++ Nat.repr (partitionIndex + 1)
      (s', (mqttPublish env out partitionPublishTopic "T" true).2)
    else (s', out)
  else (s, out)

/-- Sketch lines 223-235: fire-status publishing for one partition index. -/
def fireSection (env : Nat → Bool) (s : DscState) (out : List Msg × Nat)
    (partitionIndex : Nat) : DscState × (List Msg × Nat) :=
  if s.partitionsFireChanged partitionIndex then
    let s' : DscState :=
      { s with partitionsFireChanged :=
          Function.update s.partitionsFireChanged partitionIndex false }
    let firePublishTopic : String := mqttFireTopic ++ Nat.repr (partitionIndex + 1)
    if s'.partitionsFire partitionIndex then
      (s', (mqttPublish env out firePublishTopic "1" false).2)
    else (s', (mqttPublish env out firePublishTopic "0" false).2)
  else (s, out)

/-- One iteration of the partition loop (sketch lines 187-236). -/
def partitionStep (env : Nat → Bool) (p : DscState × (List Msg × Nat))
    (partitionIndex : Nat) : DscState × (List Msg × Nat) :=
  let p1 := armedSection env p.1 p.2 partitionIndex
  let p2 := alarmSection env p1.1 p1.2 partitionIndex
  fireSection env p2.1 p2.2 partitionIndex

/-- The partition loop over the given list of indices
(`for (byte partitionIndex = 0; partitionIndex < dscPartitions; partitionIndex++)`). -/
def partitionsLoop (env : Nat → Bool) :
    List Nat → DscState × (List Msg × Nat) → DscState × (List Msg × Nat)
  | [], p => p
  | i :: rest, p => partitionsLoop env rest (partitionStep env p i)

/-- Sketch lines 247-263: the inner zone-bit loop for one zone group, over the
given list of bit positions. -/
def zoneBitLoop (env : Nat → Bool) (zoneGroup : Nat) :
    List Nat → DscState × (List Msg × Nat) → DscState × (List Msg × Nat)
  | [], p => p
  | zoneBit :: rest, p =>
    let s := p.1
    let out := p.2
    if bitRead (s.openZonesChanged zoneGroup) zoneBit then
      let s' : DscState :=
        { s with openZonesChanged :=
            (Function.update s.openZonesChanged zoneGroup
              (bitWriteZero (s.openZonesChanged zoneGroup) zoneBit)) }
      let zonePublishTopic : String :=
        mqttZoneTopic ++ Nat.repr (zoneBit + 1 + zoneGroup * 8)
      if bitRead (s'.openZones zoneGroup) zoneBit then
        zoneBitLoop env zoneGroup rest (s', (mqttPublish env out zonePublishTopic "1" true).2)
      else
        zoneBitLoop env zoneGroup rest (s', (mqttPublish env out zonePublishTopic "0" true).2)
    else zoneBitLoop env zoneGroup rest (s, out)

/-- Sketch lines 246-264: the outer zone-group loop. -/
def zoneGroupLoop (env : Nat → Bool) :
    List Nat → DscState × (List Msg × Nat) → DscState × (List Msg × Nat)
  | [], p => p
  | g :: rest, p => zoneGroupLoop env rest (zoneBitLoop env g (List.range 8) p)

/-- Sketch lines 244-265: the zone scan, gated on `openZonesStatusChanged`,
which is reset before the scan. -/
def zoneSection (env : Nat → Bool) (s : DscState) (out : List Msg × Nat) :
    DscState × (List Msg × Nat) :=
  if s.openZonesStatusChanged then
    zoneGroupLoop env (List.range 8) ({ s with openZonesStatusChanged := false }, out)
  else (s, out)

/-- The Status Translator: the publishing body of `loop()` (sketch lines
187-265), run with an empty outbound queue and publish count 0. -/
def statusTranslator (env : Nat → Bool) (s : DscState) : DscState × (List Msg × Nat) :=
  let p := partitionsLoop env (List.range dscPartitions) (s, ([], 0))
  zoneSection env p.1 p.2

/-- A write into the panel's keypad channel: either a single keypad character
(`dsc.write('s')`) or a C string (`dsc.write(accessCode)`). -/
inductive PanelWrite where
  | key : Char → PanelWrite
  | code : String → PanelWrite
deriving DecidableEq

/-- Sketch lines 273-302, `mqttCallback`: validates the first payload byte
against the partition-armed / exit-delay state and produces the panel writes
performed.  The busy-wait `while (!dsc.writeReady) dsc.handlePanel();`
precedes each write and does not change which write is issued. -/
def mqttCallback (accessCode : String) (payload0 : Char)
    (partitionArmed exitDelay : Bool) : List PanelWrite :=
  if (payload0 == 'S') && !partitionArmed && !exitDelay then
    [PanelWrite.key 's']
  else if (payload0 == 'A') && !partitionArmed && !exitDelay then
    [PanelWrite.key 'w']
  else if (payload0 == 'N') && !partitionArmed && !exitDelay then
    [PanelWrite.key 'n']
  else if (payload0 == 'D') && (partitionArmed || exitDelay) then
    [PanelWrite.code accessCode]
  else []

/-- Sketch lines 181-184: access-code submission inside `loop()`.  Returns
the new `accessCodePrompt` flag and the writes performed. -/
def accessCodeSection (accessCode : String) (accessCodePrompt writeReady : Bool) :
    Bool × List PanelWrite :=
  if accessCodePrompt && writeReady then (false, [PanelWrite.code accessCode])
  else (accessCodePrompt, [])

/-- `unsigned long` subtraction (32-bit wraparound), as in
`mqttCurrentTime - mqttPreviousTime` at sketch line 308. -/
def ulongSub (a b : Nat) : Nat := (a + (2 ^ 32 - b % 2 ^ 32)) % 2 ^ 32

/-- Sketch lines 305-318, `mqttHandle`, restricted to the reconnect logic.
Inputs: current connection state, stored `mqttPreviousTime`, the value of
`millis()` now, and whether a connect attempt would succeed.  Output: the new
(connected, `mqttPreviousTime`) pair and whether `mqttConnect()` was called.
The `else mqtt.loop();` branch of the source has no effect on this state. -/
def mqttHandle (connected : Bool) (mqttPreviousTime millisNow : Nat)
    (connectResult : Bool) : (Bool × Nat) × Bool :=
  if !connected then
    if ulongSub millisNow mqttPreviousTime > 5000 then
      if connectResult then ((true, 0), true)
      else ((false, millisNow), true)
    else ((false, mqttPreviousTime), false)
  else ((true, mqttPreviousTime), false)

/-- Bytes needed to hold `strcpy(buf, base); strcat(buf, itoa(idx))`:
the base string, the decimal digits of `idx`, and the terminating NUL. -/
def topicBytesNeeded (base : String) (idx : Nat) : Nat :=
  base.length + (Nat.repr idx).length + 1

/-- Declared size of `partitionPublishTopic` (sketch lines 193 and 213):
`char partitionPublishTopic[strlen(mqttPartitionTopic) + 1]`. -/
def declaredPartitionTopicBuf : Nat := mqttPartitionTopic.length + 1

/-- Declared size of `firePublishTopic` (sketch line 227):
`char firePublishTopic[strlen(mqttFireTopic) + 1]`. -/
def declaredFireTopicBuf : Nat := mqttFireTopic.length + 1

/-- Declared size of `zonePublishTopic` (sketch line 252):
`char zonePublishTopic[strlen(mqttZoneTopic) + 2]`. -/
def declaredZoneTopicBuf : Nat := mqttZoneTopic.length + 2

/-! ### Characterization helpers

Cycle-free descriptions of what each section of the translator emits,
used to state and prove the claims.  Each is proved equal to the
corresponding loop section below. -/

/-- Messages emitted by `armedSection` for one partition index, as a function
of the input state. -/
def armedMsgs (s : DscState) (i : Nat) : List Msg :=
  if s.partitionsArmedChanged i then
    if s.partitionsArmed i then
      if s.partitionsArmedAway i && s.partitionsNoEntryDelay i then
        [⟨mqttPartitionTopic ++ Nat.repr (i + 1), "NA", true⟩]
      else if s.partitionsArmedAway i then
        [⟨mqttPartitionTopic ++ Nat.repr (i + 1), "AA", true⟩]
      else if s.partitionsArmedStay i && s.partitionsNoEntryDelay i then
        [⟨mqttPartitionTopic ++ Nat.repr (i + 1), "NA", true⟩]
      else if s.partitionsArmedStay i then
        [⟨mqttPartitionTopic ++ Nat.repr (i + 1), "SA", true⟩]
      else []
    else [⟨mqttPartitionTopic ++ Nat.repr (i + 1), "D", true⟩]
  else []

/-- Messages emitted by `alarmSection` for one partition index. -/
def alarmMsgs (s : DscState) (i : Nat) : List Msg :=
  if s.partitionsAlarmChanged i && s.partitionsAlarm i then
    [⟨mqttPartitionTopic ++ Nat.repr (i + 1), "T", true⟩]
  else []

/-- Messages emitted by `fireSection` for one partition index. -/
def fireMsgs (s : DscState) (i : Nat) : List Msg :=
  if s.partitionsFireChanged i then
    [⟨mqttFireTopic ++ Nat.repr (i + 1), if s.partitionsFire i then "1" else "0", false⟩]
  else []

/-- The effect of the zone-bit loop on one group byte: clear, in order, every
bit of `bits` that is set. -/
def clearSetBits (x : Nat) (bits : List Nat) : Nat :=
  bits.foldl (fun a b => if bitRead a b then bitWriteZero a b else a) x

/-- Messages emitted by `zoneBitLoop` for group `g` over the bit list `bits`. -/
def zoneBitMsgs (s : DscState) (g : Nat) (bits : List Nat) : List Msg :=
  bits.filterMap (fun b =>
    if bitRead (s.openZonesChanged g) b then
      some ⟨mqttZoneTopic ++ Nat.repr (b + 1 + g * 8),
        if bitRead (s.openZones g) b then "1" else "0", true⟩
    else none)

/-- Messages emitted by `zoneGroupLoop` over the group list `gs`. -/
def zoneGroupMsgs (s : DscState) (gs : List Nat) : List Msg :=
  gs.flatMap (fun g => zoneBitMsgs s g (List.range 8))

/-- The effect of the zone-group loop on the `openZonesChanged` bytes. -/
def clearGroups (f : Nat → Nat) (gs : List Nat) : Nat → Nat :=
  gs.foldl (fun f' g => Function.update f' g (clearSetBits (f' g) (List.range 8))) f

/-! ### Claim-side definitions (written from the spec's words, to be compared
with the embedded code) -/

/-- The spec's fixed tie-break priority for the armed payload:
`(armedAway && noEntryDelay) -> NA`, `armedAway -> AA`,
`(armedStay && noEntryDelay) -> NA`, `armedStay -> SA`, first match. -/
def armedPriorityPayload (armedAway armedStay noEntryDelay : Bool) : String :=
  if armedAway && noEntryDelay then "NA"
  else if armedAway then "AA"
  else if armedStay && noEntryDelay then "NA"
  else "SA"

/-- The zone messages demanded by the claim: for every zone `z` in `1..64`,
in ascending zone order, using the mapping `group = (z-1)/8`,
`bit = (z-1)%8`, one retained message `Zone{z}` with payload `"1"` if the
`openZones` bit is set and `"0"` if clear, emitted exactly when the
`openZonesChanged` bit is set. -/
def zoneMsgsSpec (s : DscState) : List Msg :=
  (List.range 64).filterMap (fun k =>
    let z := k + 1
    if bitRead (s.openZonesChanged ((z - 1) / 8)) ((z - 1) % 8) then
      some ⟨mqttZoneTopic ++ Nat.repr z,
        if bitRead (s.openZones ((z - 1) / 8)) ((z - 1) % 8) then "1" else "0", true⟩
    else none)

/-! ### Concrete states for witnesses and counterexamples -/

/-- All-quiet panel state: nothing armed, no flags set. -/
def quietState : DscState where
  partitionsArmed := fun _ => false
  partitionsArmedAway := fun _ => false
  partitionsArmedStay := fun _ => false
  partitionsNoEntryDelay := fun _ => false
  partitionsAlarm := fun _ => false
  partitionsFire := fun _ => false
  partitionsArmedChanged := fun _ => false
  partitionsAlarmChanged := fun _ => false
  partitionsFireChanged := fun _ => false
  openZones := fun _ => 0
  openZonesChanged := fun _ => 0
  openZonesStatusChanged := false

/-- Partition 1 reported armed with neither `armedAway` nor `armedStay` set,
and its armed-changed flag raised. -/
def armedNoModeState : DscState :=
  { quietState with
    partitionsArmed := fun p => decide (p = 0)
    partitionsArmedChanged := fun p => decide (p = 0) }

/-- Partition 1 away-armed with the armed-changed flag raised. -/
def awayArmedState : DscState :=
  { quietState with
    partitionsArmed := fun p => decide (p = 0)
    partitionsArmedAway := fun p => decide (p = 0)
    partitionsArmedChanged := fun p => decide (p = 0) }

/-- Zone 1 and zone 10 open with their change bits raised, zone 2's change
bit raised while closed, and the zone-scan gate set. -/
def zoneDemoState : DscState :=
  { quietState with
    openZones := fun g => if g = 0 then 1 else if g = 1 then 2 else 0
    openZonesChanged := fun g => if g = 0 then 3 else if g = 1 then 2 else 0
    openZonesStatusChanged := true }

/-- A state with every kind of change flag raised for partition 1. -/
def busyState : DscState :=
  { quietState with
    partitionsArmed := fun p => decide (p = 0)
    partitionsArmedAway := fun p => decide (p = 0)
    partitionsAlarm := fun p => decide (p = 0)
    partitionsFire := fun p => decide (p = 0)
    partitionsArmedChanged := fun p => decide (p = 0)
    partitionsAlarmChanged := fun p => decide (p = 0)
    partitionsFireChanged := fun p => decide (p = 0)
    openZones := fun g => if g = 0 then 1 else 0
    openZonesChanged := fun g => if g = 0 then 1 else 0
    openZonesStatusChanged := true }

/-- Combined messages of one partition-loop iteration. -/
def partitionStepMsgs (s : DscState) (i : Nat) : List Msg :=
  armedMsgs s i ++ alarmMsgs s i ++ fireMsgs s i

/-! ### Section characterizations -/

lemma mqttPublish_snd (env : Nat → Bool) (out : List Msg × Nat) (topic payload : String)
    (retained : Bool) :
    (mqttPublish env out topic payload retained).2 =
      (out.1 ++ [⟨topic, payload, retained⟩], out.2 + 1) := rfl

lemma update_false_eq {f : Nat → Bool} {i : Nat} (h : f i = false) :
    Function.update f i false = f :=
  Function.update_eq_self_iff.mpr h.symm

lemma armedSection_eq (env : Nat → Bool) (s : DscState) (out : List Msg × Nat) (i : Nat) :
    armedSection env s out i =
      ({ s with partitionsArmedChanged := Function.update s.partitionsArmedChanged i false },
       (out.1 ++ armedMsgs s i, out.2 + (armedMsgs s i).length)) := by
  cases h : s.partitionsArmedChanged i <;>
    cases ha : s.partitionsArmed i <;>
      cases hw : s.partitionsArmedAway i <;>
        cases hs : s.partitionsArmedStay i <;>
          cases hn : s.partitionsNoEntryDelay i <;>
            simp [armedSection, armedMsgs, mqttPublish, h, ha, hw, hs, hn, update_false_eq]

lemma alarmSection_eq (env : Nat → Bool) (s : DscState) (out : List Msg × Nat) (i : Nat) :
    alarmSection env s out i =
      ({ s with partitionsAlarmChanged := Function.update s.partitionsAlarmChanged i false },
       (out.1 ++ alarmMsgs s i, out.2 + (alarmMsgs s i).length)) := by
  cases h : s.partitionsAlarmChanged i <;>
    cases ha : s.partitionsAlarm i <;>
      simp [alarmSection, alarmMsgs, mqttPublish, h, ha, update_false_eq]

lemma fireSection_eq (env : Nat → Bool) (s : DscState) (out : List Msg × Nat) (i : Nat) :
    fireSection env s out i =
      ({ s with partitionsFireChanged := Function.update s.partitionsFireChanged i false },
       (out.1 ++ fireMsgs s i, out.2 + (fireMsgs s i).length)) := by
  cases h : s.partitionsFireChanged i <;>
    cases hf : s.partitionsFire i <;>
      simp [fireSection, fireMsgs, mqttPublish, h, hf, update_false_eq]

lemma partitionStep_eq (env : Nat → Bool) (p : DscState × (List Msg × Nat)) (i : Nat) :
    partitionStep env p i =
      ({ p.1 with
          partitionsArmedChanged := Function.update p.1.partitionsArmedChanged i false
          partitionsAlarmChanged := Function.update p.1.partitionsAlarmChanged i false
          partitionsFireChanged := Function.update p.1.partitionsFireChanged i false },
       (p.2.1 ++ partitionStepMsgs p.1 i, p.2.2 + (partitionStepMsgs p.1 i).length)) := by
  simp only [partitionStep, armedSection_eq, alarmSection_eq, fireSection_eq, partitionStepMsgs]
  simp [armedMsgs, alarmMsgs, fireMsgs, Nat.add_assoc]

/-! ### Partition-loop lemmas -/

lemma partitionStep_flags (env : Nat → Bool) (p : DscState × (List Msg × Nat)) (i j : Nat) :
    ((partitionStep env p i).1.partitionsArmedChanged j =
        if j = i then false else p.1.partitionsArmedChanged j) ∧
    ((partitionStep env p i).1.partitionsAlarmChanged j =
        if j = i then false else p.1.partitionsAlarmChanged j) ∧
    ((partitionStep env p i).1.partitionsFireChanged j =
        if j = i then false else p.1.partitionsFireChanged j) := by
  simp [partitionStep_eq, Function.update_apply]

lemma partitionsLoop_flag_false (env : Nat → Bool) (l : List Nat) :
    ∀ (p : DscState × (List Msg × Nat)) (j : Nat),
    (j ∈ l ∨ (p.1.partitionsArmedChanged j = false ∧ p.1.partitionsAlarmChanged j = false ∧
        p.1.partitionsFireChanged j = false)) →
    (partitionsLoop env l p).1.partitionsArmedChanged j = false ∧
    (partitionsLoop env l p).1.partitionsAlarmChanged j = false ∧
    (partitionsLoop env l p).1.partitionsFireChanged j = false := by
  induction l with
  | nil =>
    intro p j h
    rcases h with h | h
    · simp at h
    · simpa [partitionsLoop] using h
  | cons i rest ih =>
    intro p j h
    have hstep := partitionStep_flags env p i j
    simp only [partitionsLoop]
    apply ih
    rcases h with h | h
    · rcases List.mem_cons.mp h with rfl | hm
      · right
        refine ⟨?_, ?_, ?_⟩ <;> simp [hstep.1, hstep.2.1, hstep.2.2]
      · left; exact hm
    · right
      refine ⟨?_, ?_, ?_⟩ <;>
        simp [hstep.1, hstep.2.1, hstep.2.2, h.1, h.2.1, h.2.2]

lemma partitionsLoop_noflags (env : Nat → Bool) (l : List Nat) :
    ∀ (p : DscState × (List Msg × Nat)),
    (∀ j ∈ l, p.1.partitionsArmedChanged j = false ∧ p.1.partitionsAlarmChanged j = false ∧
        p.1.partitionsFireChanged j = false) →
    partitionsLoop env l p = p := by
  induction l with
  | nil => intro p _; rfl
  | cons i rest ih =>
    intro p h
    have hi := h i (by simp)
    have hstep : partitionStep env p i = p := by
      rw [partitionStep_eq]
      simp [partitionStepMsgs, armedMsgs, alarmMsgs, fireMsgs, hi.1, hi.2.1, hi.2.2,
        update_false_eq]
    simp only [partitionsLoop, hstep]
    exact ih p (fun j hj => h j (by simp [hj]))

lemma partitionsLoop_others (env : Nat → Bool) (l : List Nat) :
    ∀ (p : DscState × (List Msg × Nat)),
    (partitionsLoop env l p).1.openZonesStatusChanged = p.1.openZonesStatusChanged ∧
    (partitionsLoop env l p).1.openZones = p.1.openZones ∧
    (partitionsLoop env l p).1.openZonesChanged = p.1.openZonesChanged := by
  induction l with
  | nil => intro p; exact ⟨rfl, rfl, rfl⟩
  | cons i rest ih =>
    intro p
    have h := ih (partitionStep env p i)
    simp only [partitionsLoop]
    refine ⟨h.1.trans ?_, h.2.1.trans ?_, h.2.2.trans ?_⟩ <;> simp [partitionStep_eq]

/-! ### Bit-level lemmas -/

lemma bitRead_bitWriteZero (x b j : Nat) (hj : j < 8) :
    bitRead (bitWriteZero x b) j = (bitRead x j && !(decide (b = j))) := by
  unfold bitRead bitWriteZero
  rw [Nat.testBit_and, Nat.testBit_xor, Nat.one_shiftLeft, Nat.testBit_two_pow]
  rw [show (255 : Nat) = 2 ^ 8 - 1 from rfl, Nat.testBit_two_pow_sub_one]
  simp [hj]

lemma bitRead_bitWriteZero_self (x b : Nat) (hb : b < 8) :
    bitRead (bitWriteZero x b) b = false := by
  simp [bitRead_bitWriteZero x b b hb]

lemma bitRead_bitWriteZero_ne (x b j : Nat) (hj : j < 8) (hne : b ≠ j) :
    bitRead (bitWriteZero x b) j = bitRead x j := by
  simp [bitRead_bitWriteZero x b j hj, hne]

lemma clearSetBits_cons (x b : Nat) (bits : List Nat) :
    clearSetBits x (b :: bits) =
      clearSetBits (if bitRead x b then bitWriteZero x b else x) bits := rfl

lemma bitRead_clearSetBits_of_false (bits : List Nat) :
    ∀ (x j : Nat), j < 8 → bitRead x j = false → bitRead (clearSetBits x bits) j = false := by
  induction bits with
  | nil => intro x j _ h; exact h
  | cons b rest ih =>
    intro x j hj h
    rw [clearSetBits_cons]
    apply ih _ j hj
    by_cases hb : bitRead x b
    · rcases eq_or_ne b j with rfl | hne
      · simp [hb] at h
      · simp [hb, bitRead_bitWriteZero_ne x b j hj hne, h]
    · simp [hb, h]

lemma bitRead_clearSetBits (bits : List Nat) :
    ∀ (x j : Nat), j < 8 → j ∈ bits → bitRead (clearSetBits x bits) j = false := by
  induction bits with
  | nil => intro x j _ h; simp at h
  | cons b rest ih =>
    intro x j hj hmem
    rw [clearSetBits_cons]
    rcases List.mem_cons.mp hmem with rfl | hr
    · apply bitRead_clearSetBits_of_false rest _ j hj
      by_cases hb : bitRead x j
      · simp [hb, bitRead_bitWriteZero_self x j hj]
      · simp only [Bool.not_eq_true] at hb
        simp [hb]
    · exact ih _ j hj hr

/-! ### Zone-loop characterizations -/

lemma zoneBitLoop_eq (env : Nat → Bool) (g : Nat) :
    ∀ (bits : List Nat) (s : DscState) (out : List Msg × Nat),
    (∀ b ∈ bits, b < 8) → bits.Nodup →
    zoneBitLoop env g bits (s, out) =
      ({ s with openZonesChanged :=
          (Function.update s.openZonesChanged g (clearSetBits (s.openZonesChanged g) bits)) },
       (out.1 ++ zoneBitMsgs s g bits, out.2 + (zoneBitMsgs s g bits).length)) := by
  intro bits
  induction bits with
  | nil =>
    intro s out _ _
    simp [zoneBitLoop, zoneBitMsgs, clearSetBits, Function.update_eq_self]
  | cons b rest ih =>
    intro s out hlt hnd
    have hb : b < 8 := hlt b (by simp)
    have hlt' : ∀ b' ∈ rest, b' < 8 := fun b' hb' => hlt b' (by simp [hb'])
    have hnd' : rest.Nodup := (List.nodup_cons.mp hnd).2
    have hbmem : b ∉ rest := (List.nodup_cons.mp hnd).1
    by_cases hset : bitRead (s.openZonesChanged g) b
    · have hozc : (Function.update s.openZonesChanged g
          (bitWriteZero (s.openZonesChanged g) b)) g =
          bitWriteZero (s.openZonesChanged g) b := Function.update_same ..
      have hmsgs : zoneBitMsgs
          { s with openZonesChanged :=
              (Function.update s.openZonesChanged g
                (bitWriteZero (s.openZonesChanged g) b)) } g rest =
          zoneBitMsgs s g rest := by
        apply List.filterMap_congr
        intro b' hb'
        have hob : bitRead (bitWriteZero (s.openZonesChanged g) b) b' =
            bitRead (s.openZonesChanged g) b' :=
          bitRead_bitWriteZero_ne _ b b' (hlt' b' hb') (fun hEq => hbmem (hEq ▸ hb'))
        simp [Function.update_same, hob]
      have hcl : clearSetBits (s.openZonesChanged g) (b :: rest) =
          clearSetBits (bitWriteZero (s.openZonesChanged g) b) rest := by
        rw [clearSetBits_cons, if_pos hset]
      have hnew : zoneBitMsgs s g (b :: rest) =
          (⟨mqttZoneTopic ++ Nat.repr (b + 1 + g * 8),
            if bitRead (s.openZones g) b then "1" else "0", true⟩ : Msg) ::
            zoneBitMsgs s g rest := by
        simp [zoneBitMsgs, List.filterMap_cons, hset]
      by_cases hopen : bitRead (s.openZones g) b = true
      · simp only [zoneBitLoop, mqttPublish_snd]
        rw [if_pos hset, if_pos hopen, ih _ _ hlt' hnd']
        congr 1
        · simp only [hozc, Function.update_idem, hcl]
        · congr 1
          · rw [hmsgs, hnew]
            simp [hopen]
          · rw [hmsgs, hnew]
            simp only [List.length_cons]
            omega
      · simp only [zoneBitLoop, mqttPublish_snd]
        rw [if_pos hset, if_neg hopen, ih _ _ hlt' hnd']
        congr 1
        · simp only [hozc, Function.update_idem, hcl]
        · congr 1
          · rw [hmsgs, hnew]
            simp [hopen]
          · rw [hmsgs, hnew]
            simp only [List.length_cons]
            omega
    · simp only [zoneBitLoop, hset, if_false, Bool.false_eq_true]
      rw [ih _ _ hlt' hnd']
      have hcl : clearSetBits (s.openZonesChanged g) (b :: rest) =
          clearSetBits (s.openZonesChanged g) rest := by
        rw [clearSetBits_cons, if_neg (by simp [hset])]
      have hnew : zoneBitMsgs s g (b :: rest) = zoneBitMsgs s g rest := by
        simp [zoneBitMsgs, List.filterMap_cons, hset]
      simp [hcl, hnew]

lemma clearGroups_cons (f : Nat → Nat) (g : Nat) (rest : List Nat) :
    clearGroups f (g :: rest) =
      clearGroups (Function.update f g (clearSetBits (f g) (List.range 8))) rest := rfl

lemma zoneGroupMsgs_cons (s : DscState) (g : Nat) (rest : List Nat) :
    zoneGroupMsgs s (g :: rest) =
      zoneBitMsgs s g (List.range 8) ++ zoneGroupMsgs s rest := by
  simp [zoneGroupMsgs]

lemma zoneGroupLoop_eq (env : Nat → Bool) :
    ∀ (gs : List Nat) (s : DscState) (out : List Msg × Nat), gs.Nodup →
    zoneGroupLoop env gs (s, out) =
      ({ s with openZonesChanged := clearGroups s.openZonesChanged gs },
       (out.1 ++ zoneGroupMsgs s gs, out.2 + (zoneGroupMsgs s gs).length)) := by
  intro gs
  induction gs with
  | nil =>
    intro s out _
    simp [zoneGroupLoop, zoneGroupMsgs, clearGroups]
  | cons g rest ih =>
    intro s out hnd
    have hnd' : rest.Nodup := (List.nodup_cons.mp hnd).2
    have hgmem : g ∉ rest := (List.nodup_cons.mp hnd).1
    have hmsgs : zoneGroupMsgs
        { s with openZonesChanged :=
            (Function.update s.openZonesChanged g
              (clearSetBits (s.openZonesChanged g) (List.range 8))) } rest =
        zoneGroupMsgs s rest := by
      unfold zoneGroupMsgs
      apply List.flatMap_congr
      intro g' hg'
      have hne : g' ≠ g := fun hEq => hgmem (hEq ▸ hg')
      unfold zoneBitMsgs
      apply List.filterMap_congr
      intro b' _
      simp [Function.update_noteq hne]
    simp only [zoneGroupLoop]
    rw [zoneBitLoop_eq env g (List.range 8) s out
      (fun b hb => List.mem_range.mp hb) (List.nodup_range 8)]
    rw [ih _ _ hnd']
    simp only [Prod.mk.injEq]
    refine ⟨?_, ?_, ?_⟩
    · simp [clearGroups_cons]
    · rw [hmsgs, zoneGroupMsgs_cons]
      simp
    · rw [hmsgs, zoneGroupMsgs_cons]
      simp only [List.length_append]
      omega

lemma zoneSection_eq_of_changed (env : Nat → Bool) (s : DscState) (out : List Msg × Nat)
    (h : s.openZonesStatusChanged = true) :
    zoneSection env s out =
      ({ s with
          openZonesStatusChanged := false
          openZonesChanged := clearGroups s.openZonesChanged (List.range 8) },
       (out.1 ++ zoneGroupMsgs s (List.range 8),
        out.2 + (zoneGroupMsgs s (List.range 8)).length)) := by
  simp only [zoneSection, h, if_true]
  rw [zoneGroupLoop_eq env (List.range 8) _ _ (List.nodup_range 8)]
  congr 1

lemma zoneSection_eq_of_unchanged (env : Nat → Bool) (s : DscState) (out : List Msg × Nat)
    (h : s.openZonesStatusChanged = false) :
    zoneSection env s out = (s, out) := by
  simp [zoneSection, h]

lemma zoneSection_fst_ozsc (env : Nat → Bool) (s : DscState) (out : List Msg × Nat) :
    (zoneSection env s out).1.openZonesStatusChanged = false := by
  cases h : s.openZonesStatusChanged
  · simp [zoneSection_eq_of_unchanged env s out h, h]
  · simp [zoneSection_eq_of_changed env s out h]

lemma zoneSection_fst_partitionFlags (env : Nat → Bool) (s : DscState) (out : List Msg × Nat) :
    (zoneSection env s out).1.partitionsArmedChanged = s.partitionsArmedChanged ∧
    (zoneSection env s out).1.partitionsAlarmChanged = s.partitionsAlarmChanged ∧
    (zoneSection env s out).1.partitionsFireChanged = s.partitionsFireChanged := by
  cases h : s.openZonesStatusChanged
  · simp [zoneSection_eq_of_unchanged env s out h]
  · simp [zoneSection_eq_of_changed env s out h]

/-! ### Independence from publish outcomes -/

lemma armedSection_env (env env' : Nat → Bool) (s : DscState) (out : List Msg × Nat) (i : Nat) :
    armedSection env s out i = armedSection env' s out i := by
  rw [armedSection_eq, armedSection_eq]

lemma alarmSection_env (env env' : Nat → Bool) (s : DscState) (out : List Msg × Nat) (i : Nat) :
    alarmSection env s out i = alarmSection env' s out i := by
  rw [alarmSection_eq, alarmSection_eq]

lemma fireSection_env (env env' : Nat → Bool) (s : DscState) (out : List Msg × Nat) (i : Nat) :
    fireSection env s out i = fireSection env' s out i := by
  rw [fireSection_eq, fireSection_eq]

lemma partitionStep_env (env env' : Nat → Bool) (p : DscState × (List Msg × Nat)) (i : Nat) :
    partitionStep env p i = partitionStep env' p i := by
  rw [partitionStep_eq, partitionStep_eq]

lemma partitionsLoop_env (env env' : Nat → Bool) :
    ∀ (l : List Nat) (p : DscState × (List Msg × Nat)),
    partitionsLoop env l p = partitionsLoop env' l p := by
  intro l
  induction l with
  | nil => intro p; rfl
  | cons i rest ih =>
    intro p
    simp only [partitionsLoop]
    rw [partitionStep_env env env']
    exact ih _

lemma zoneBitLoop_env (env env' : Nat → Bool) (g : Nat) :
    ∀ (bits : List Nat) (p : DscState × (List Msg × Nat)),
    zoneBitLoop env g bits p = zoneBitLoop env' g bits p := by
  intro bits
  induction bits with
  | nil => intro p; rfl
  | cons b rest ih =>
    intro p
    simp only [zoneBitLoop, mqttPublish_snd]
    by_cases hset : bitRead (p.1.openZonesChanged g) b = true
    · rw [if_pos hset, if_pos hset]
      by_cases hopen : bitRead (p.1.openZones g) b = true
      · rw [if_pos hopen, if_pos hopen]
        exact ih _
      · rw [if_neg hopen, if_neg hopen]
        exact ih _
    · rw [if_neg hset, if_neg hset]
      exact ih _

lemma zoneGroupLoop_env (env env' : Nat → Bool) :
    ∀ (gs : List Nat) (p : DscState × (List Msg × Nat)),
    zoneGroupLoop env gs p = zoneGroupLoop env' gs p := by
  intro gs
  induction gs with
  | nil => intro p; rfl
  | cons g rest ih =>
    intro p
    simp only [zoneGroupLoop]
    rw [zoneBitLoop_env env env']
    exact ih _

lemma zoneSection_env (env env' : Nat → Bool) (s : DscState) (out : List Msg × Nat) :
    zoneSection env s out = zoneSection env' s out := by
  unfold zoneSection
  cases h : s.openZonesStatusChanged
  · simp [h]
  · simp only [h, if_true]
    exact zoneGroupLoop_env env env' _ _

lemma statusTranslator_env (env env' : Nat → Bool) (s : DscState) :
    statusTranslator env s = statusTranslator env' s := by
  unfold statusTranslator
  rw [partitionsLoop_env env env', zoneSection_env env env']

/-! ### Whole-translator state facts -/

lemma statusTranslator_flags (env : Nat → Bool) (s : DscState) :
    ∀ j ∈ List.range dscPartitions,
    (statusTranslator env s).1.partitionsArmedChanged j = false ∧
    (statusTranslator env s).1.partitionsAlarmChanged j = false ∧
    (statusTranslator env s).1.partitionsFireChanged j = false := by
  intro j hj
  unfold statusTranslator
  obtain ⟨h1, h2, h3⟩ := zoneSection_fst_partitionFlags env
    (partitionsLoop env (List.range dscPartitions) (s, ([], 0))).1
    (partitionsLoop env (List.range dscPartitions) (s, ([], 0))).2
  rw [h1, h2, h3]
  exact partitionsLoop_flag_false env (List.range dscPartitions) _ j (Or.inl hj)

lemma statusTranslator_ozsc (env : Nat → Bool) (s : DscState) :
    (statusTranslator env s).1.openZonesStatusChanged = false := by
  unfold statusTranslator
  exact zoneSection_fst_ozsc env _ _

lemma clearGroups_not_mem (gs : List Nat) :
    ∀ (f : Nat → Nat) (g : Nat), g ∉ gs → clearGroups f gs g = f g := by
  induction gs with
  | nil => intro f g _; rfl
  | cons g0 rest ih =>
    intro f g hg
    rw [clearGroups_cons]
    rw [ih _ g (fun hr => hg (List.mem_cons_of_mem g0 hr))]
    exact Function.update_noteq
      (fun hEq => hg (by rw [hEq]; exact List.mem_cons_self g0 rest)) _ _

lemma bitRead_clearGroups (gs : List Nat) :
    ∀ (f : Nat → Nat) (g b : Nat), g ∈ gs → gs.Nodup → b < 8 →
    bitRead (clearGroups f gs g) b = false := by
  induction gs with
  | nil => intro f g b hg _ _; simp at hg
  | cons g0 rest ih =>
    intro f g b hg hnd hb
    rw [clearGroups_cons]
    rcases List.mem_cons.mp hg with rfl | hr
    · have hnotin : g ∉ rest := (List.nodup_cons.mp hnd).1
      rw [clearGroups_not_mem rest _ g hnotin, Function.update_same]
      exact bitRead_clearSetBits (List.range 8) _ b hb (List.mem_range.mpr hb)
    · exact ih _ g b hr (List.nodup_cons.mp hnd).2 hb

lemma armedMsgs_length (s : DscState) (i : Nat) : (armedMsgs s i).length ≤ 1 := by
  unfold armedMsgs
  repeat' split
  all_goals simp

lemma zoneMsgsSpec_eq_group (s : DscState) :
    zoneMsgsSpec s = zoneGroupMsgs s (List.range 8) := by
  unfold zoneMsgsSpec zoneGroupMsgs zoneBitMsgs
  have hsplit : List.range 64 =
      (List.range 8).flatMap (fun g => (List.range 8).map (fun b => g * 8 + b)) := by decide
  rw [hsplit, List.filterMap_flatMap]
  apply List.flatMap_congr
  intro g _
  rw [List.filterMap_map]
  apply List.filterMap_congr
  intro b hb
  have hb8 : b < 8 := List.mem_range.mp hb
  have hz : g * 8 + b + 1 = b + 1 + g * 8 := by omega
  simp only [Function.comp, hz]
  have hdiv2 : (b + g * 8) / 8 = g := by omega
  have hmodb : b % 8 = b := Nat.mod_eq_of_lt hb8
  simp [hz, hdiv2, hmodb]

/-! ### Claims -/

/-- Claim C1: for every inbound broker message, the Command Gate performs a
panel write exactly when the first payload byte is `S`, `A` or `N` with
`!armed && !exitDelay` (writing the single keypad character `s`, `w`, `n`
respectively), or `D` with `armed || exitDelay` (writing the access-code
string); in every other case zero writes occur and nothing is reported back
to the broker (the handler returns only its writes). -/
theorem c1_command_gate (accessCode : String) (payload0 : Char)
    (partitionArmed exitDelay : Bool) :
    mqttCallback accessCode payload0 partitionArmed exitDelay =
      (if partitionArmed || exitDelay then
        (if payload0 == 'D' then [PanelWrite.code accessCode] else [])
      else if payload0 == 'S' then [PanelWrite.key 's']
      else if payload0 == 'A' then [PanelWrite.key 'w']
      else if payload0 == 'N' then [PanelWrite.key 'n']
      else []) := by
  cases partitionArmed <;> cases exitDelay <;> simp [mqttCallback]

/-- Claim C2, counterexample: with `armedChanged` set, `armed` true but
neither `armedAway` nor `armedStay` set, the translator publishes nothing at
all (the claim demands exactly one retained message whenever `armedChanged`
is set). -/
theorem c2_counterexample :
    armedNoModeState.partitionsArmedChanged 0 = true ∧
    armedNoModeState.partitionsArmed 0 = true ∧
    armedNoModeState.partitionsArmedAway 0 = false ∧
    armedNoModeState.partitionsArmedStay 0 = false ∧
    (statusTranslator (fun _ => true) armedNoModeState).2.1 = [] := by
  refine ⟨by decide, by decide, by decide, by decide, by decide⟩

/-- Claim C2 (amended): for every partition with `armedChanged` set, the
armed section clears the flag and publishes at most one retained message to
`Partition(i+1)`: payload chosen by the fixed priority order
(armedAway and noEntryDelay -> NA, armedAway -> AA, armedStay and
noEntryDelay -> NA, armedStay -> SA) when armed with at least one mode flag,
payload `D` when not armed, and — the amendment — no message at all when
armed with both mode flags clear. -/
theorem c2_armed_priority (env : Nat → Bool) (s : DscState) (out : List Msg × Nat) (i : Nat)
    (h : s.partitionsArmedChanged i = true) :
    (armedSection env s out i).1.partitionsArmedChanged i = false ∧
    (s.partitionsArmed i = false →
      (armedSection env s out i).2.1 =
        out.1 ++ [⟨mqttPartitionTopic ++ Nat.repr (i + 1), "D", true⟩]) ∧
    (s.partitionsArmed i = true →
      s.partitionsArmedAway i = true ∨ s.partitionsArmedStay i = true →
      (armedSection env s out i).2.1 =
        out.1 ++ [⟨mqttPartitionTopic ++ Nat.repr (i + 1),
          armedPriorityPayload (s.partitionsArmedAway i) (s.partitionsArmedStay i)
            (s.partitionsNoEntryDelay i), true⟩]) ∧
    (s.partitionsArmed i = true → s.partitionsArmedAway i = false →
      s.partitionsArmedStay i = false → (armedSection env s out i).2.1 = out.1) ∧
    (armedSection env s out i).2.1.length ≤ out.1.length + 1 := by
  refine ⟨?_, ?_, ?_, ?_, ?_⟩
  · simp [armedSection_eq, Function.update_same]
  · intro ha
    simp [armedSection_eq, armedMsgs, h, ha]
  · intro ha hmode
    by_cases haw : s.partitionsArmedAway i = true
    · by_cases hne : s.partitionsNoEntryDelay i = true
      · simp [armedSection_eq, armedMsgs, armedPriorityPayload, h, ha, haw, hne]
      · simp [armedSection_eq, armedMsgs, armedPriorityPayload, h, ha, haw, hne]
    · have hst : s.partitionsArmedStay i = true := by
        rcases hmode with h' | h'
        · exact absurd h' haw
        · exact h'
      by_cases hne : s.partitionsNoEntryDelay i = true
      · simp [armedSection_eq, armedMsgs, armedPriorityPayload, h, ha, haw, hst, hne]
      · simp [armedSection_eq, armedMsgs, armedPriorityPayload, h, ha, haw, hst, hne]
  · intro ha haw hst
    simp [armedSection_eq, armedMsgs, h, ha, haw, hst]
  · have hlen := armedMsgs_length s i
    simp only [armedSection_eq, List.length_append]
    omega

/-- Claim C2, witness at a concrete away-armed partition. -/
theorem c2_armed_priority_witness :
    awayArmedState.partitionsArmedChanged 0 = true ∧
    awayArmedState.partitionsArmed 0 = true ∧
    (awayArmedState.partitionsArmedAway 0 = true ∨
      awayArmedState.partitionsArmedStay 0 = true) ∧
    (armedSection (fun _ => true) awayArmedState ([], 0) 0).2.1 =
      [] ++ [⟨mqttPartitionTopic ++ Nat.repr (0 + 1),
        armedPriorityPayload (awayArmedState.partitionsArmedAway 0)
          (awayArmedState.partitionsArmedStay 0)
          (awayArmedState.partitionsNoEntryDelay 0), true⟩] :=
  ⟨by decide, by decide, Or.inl (by decide),
   (c2_armed_priority (fun _ => true) awayArmedState ([], 0) 0 (by decide)).2.2.1
     (by decide) (Or.inl (by decide))⟩

/-- Claim C3: when the zone-scan gate `openZonesStatusChanged` is set, the
scan publishes exactly the messages of the claim formula `zoneMsgsSpec` —
all 8 groups x 8 bits in ascending zone order under the mapping
`group = (z-1)/8`, `bit = (z-1)%8`, one retained message per changed zone
with payload "1"/"0" from the `openZones` bit, skipping unchanged zones —
and clears every `openZonesChanged` bit together with the gate. -/
theorem c3_zone_scan (env : Nat → Bool) (s : DscState) (out : List Msg × Nat)
    (h : s.openZonesStatusChanged = true) :
    (zoneSection env s out).2.1 = out.1 ++ zoneMsgsSpec s ∧
    (∀ g, g < 8 → ∀ b, b < 8 →
      bitRead ((zoneSection env s out).1.openZonesChanged g) b = false) ∧
    (zoneSection env s out).1.openZonesStatusChanged = false := by
  refine ⟨?_, ?_, zoneSection_fst_ozsc env s out⟩
  · rw [zoneSection_eq_of_changed env s out h, zoneMsgsSpec_eq_group]
  · intro g hg b hb
    rw [zoneSection_eq_of_changed env s out h]
    exact bitRead_clearGroups (List.range 8) _ g b (List.mem_range.mpr hg)
      (List.nodup_range 8) hb

/-- Claim C3, witness: zones 1 (open), 2 (closed) and 10 (open) changed. -/
theorem c3_zone_scan_witness :
    zoneDemoState.openZonesStatusChanged = true ∧
    zoneMsgsSpec zoneDemoState =
      [⟨"dsc/Get/Zone1", "1", true⟩, ⟨"dsc/Get/Zone2", "0", true⟩,
       ⟨"dsc/Get/Zone10", "1", true⟩] ∧
    (zoneSection (fun _ => true) zoneDemoState ([], 0)).2.1 =
      [] ++ zoneMsgsSpec zoneDemoState ∧
    bitRead ((zoneSection (fun _ => true) zoneDemoState ([], 0)).1.openZonesChanged 1) 1 =
      false :=
  ⟨by decide, by decide,
   (c3_zone_scan (fun _ => true) zoneDemoState ([], 0) (by decide)).1,
   (c3_zone_scan (fun _ => true) zoneDemoState ([], 0) (by decide)).2.1 1 (by decide) 1
     (by decide)⟩

/-- Claim C4: an alarm-tripped message (`T` to `Partition(i+1)`, retained) is
emitted exactly when `alarmChanged` and `alarm` are both set; no message when
the alarm transitions to false, and the change flag ends up cleared in both
cases. -/
theorem c4_alarm_tripped (env : Nat → Bool) (s : DscState) (out : List Msg × Nat) (i : Nat) :
    (alarmSection env s out i).2.1 =
      out.1 ++ (if s.partitionsAlarmChanged i && s.partitionsAlarm i then
        [⟨mqttPartitionTopic ++ Nat.repr (i + 1), "T", true⟩] else []) ∧
    (alarmSection env s out i).1.partitionsAlarmChanged i = false := by
  refine ⟨?_, ?_⟩
  · rw [alarmSection_eq]
    rfl
  · simp [alarmSection_eq, Function.update_same]

/-- Claim C5: with `fireChanged` set, exactly one message goes to
`Fire(i+1)` with payload "1" iff `fire` is set and "0" otherwise, never
retained, and the flag is cleared. -/
theorem c5_fire (env : Nat → Bool) (s : DscState) (out : List Msg × Nat) (i : Nat) :
    (fireSection env s out i).2.1 =
      out.1 ++ (if s.partitionsFireChanged i then
        [⟨mqttFireTopic ++ Nat.repr (i + 1),
          if s.partitionsFire i then "1" else "0", false⟩] else []) ∧
    (fireSection env s out i).1.partitionsFireChanged i = false := by
  refine ⟨?_, ?_⟩
  · rw [fireSection_eq]
    rfl
  · simp [fireSection_eq, Function.update_same]

/-- Claim C6: running the Status Translator twice in succession, with no
flags re-set in between, produces zero outbound messages on the second run. -/
theorem c6_translator_idempotent (env1 env2 : Nat → Bool) (s : DscState) :
    (statusTranslator env2 (statusTranslator env1 s).1).2.1 = [] := by
  have key : ∀ s1 : DscState,
      (∀ j ∈ List.range dscPartitions,
        s1.partitionsArmedChanged j = false ∧ s1.partitionsAlarmChanged j = false ∧
        s1.partitionsFireChanged j = false) →
      s1.openZonesStatusChanged = false →
      (statusTranslator env2 s1).2.1 = [] := by
    intro s1 hfl hoz
    simp only [statusTranslator]
    rw [partitionsLoop_noflags env2 _ _ (fun j hj => hfl j hj)]
    show (zoneSection env2 s1 ([], 0)).2.1 = []
    rw [zoneSection_eq_of_unchanged env2 s1 ([], 0) hoz]
  exact key _ (statusTranslator_flags env1 s) (statusTranslator_ozsc env1 s)

/-- Claim C7: the translator's output — including every cleared change
flag — does not depend on the publish results at all (the sketch discards
`mqtt.publish`'s boolean), and every armed/alarm/fire change flag in range
is cleared after the run, as are the zone-scan gate and, when the gate was
set, all 64 zone-change bits; a failed publish is therefore never retried. -/
theorem c7_flags_cleared_regardless (env env' : Nat → Bool) (s : DscState) :
    statusTranslator env s = statusTranslator env' s ∧
    (∀ j, j < dscPartitions →
      (statusTranslator env s).1.partitionsArmedChanged j = false ∧
      (statusTranslator env s).1.partitionsAlarmChanged j = false ∧
      (statusTranslator env s).1.partitionsFireChanged j = false) ∧
    (statusTranslator env s).1.openZonesStatusChanged = false ∧
    (s.openZonesStatusChanged = true →
      ∀ g, g < 8 → ∀ b, b < 8 →
        bitRead ((statusTranslator env s).1.openZonesChanged g) b = false) := by
  refine ⟨statusTranslator_env env env' s, ?_, statusTranslator_ozsc env s, ?_⟩
  · intro j hj
    exact statusTranslator_flags env s j (List.mem_range.mpr hj)
  · intro hoz g hg b hb
    have hothers := partitionsLoop_others env (List.range dscPartitions) (s, ([], 0))
    simp only [statusTranslator]
    rw [zoneSection_eq_of_changed env _ _ (by rw [hothers.1]; exact hoz)]
    show bitRead (clearGroups
      (partitionsLoop env (List.range dscPartitions) (s, ([], 0))).1.openZonesChanged
      (List.range 8) g) b = false
    exact bitRead_clearGroups (List.range 8) _ g b (List.mem_range.mpr hg)
      (List.nodup_range 8) hb

/-- Claim C7, witness at a state with every kind of change flag set. -/
theorem c7_flags_cleared_regardless_witness :
    (0 < dscPartitions ∧ busyState.openZonesStatusChanged = true) ∧
    ((statusTranslator (fun _ => true) busyState).1.partitionsArmedChanged 0 = false ∧
     (statusTranslator (fun _ => true) busyState).1.partitionsAlarmChanged 0 = false ∧
     (statusTranslator (fun _ => true) busyState).1.partitionsFireChanged 0 = false) ∧
    bitRead ((statusTranslator (fun _ => true) busyState).1.openZonesChanged 0) 0 = false :=
  ⟨⟨by decide, by decide⟩,
   (c7_flags_cleared_regardless (fun _ => true) (fun _ => false) busyState).2.1 0 (by decide),
   (c7_flags_cleared_regardless (fun _ => true) (fun _ => false) busyState).2.2.2
     (by decide) 0 (by decide) 0 (by decide)⟩

/-- Claim C8, counterexample: at elapsed time exactly 5000 ms since the last
attempt, the supervisor makes no reconnect attempt — the source condition is
strictly `> 5000`, so the claim's "at >= 5000 ms, exactly one attempt
occurs" fails at the boundary. -/
theorem c8_boundary_counterexample :
    ulongSub 5000 0 = 5000 ∧
    (mqttHandle false 0 5000 true).2 = false ∧
    mqttHandle false 0 5000 true = ((false, 0), false) := by
  refine ⟨by decide, by decide, by decide⟩

/-- Claim C8 (amended): when disconnected, no reconnect attempt occurs while
elapsed time since the last attempt is at most 5000 ms; an attempt occurs
exactly when elapsed time exceeds 5000 ms (at least 5001 ms); after a failed
attempt the timer is reset to the attempt time, so the next attempt occurs
strictly more than 5000 ms later. -/
theorem c8_reconnect_backoff (prev now now2 : Nat) (ok ok2 : Bool) :
    (ulongSub now prev ≤ 5000 →
      mqttHandle false prev now ok = ((false, prev), false)) ∧
    (ulongSub now prev > 5000 → (mqttHandle false prev now ok).2 = true) ∧
    (ulongSub now prev > 5000 → ok = false →
      mqttHandle false prev now ok = ((false, now), true)) ∧
    (ulongSub now2 now ≤ 5000 → (mqttHandle false now now2 ok2).2 = false) := by
  refine ⟨?_, ?_, ?_, ?_⟩
  · intro h
    simp only [mqttHandle]
    rw [if_pos (show (!false) = true from rfl), if_neg (by omega)]
  · intro h
    simp only [mqttHandle]
    rw [if_pos (show (!false) = true from rfl), if_pos h]
    cases ok <;> rfl
  · intro h hok
    subst hok
    simp only [mqttHandle]
    rw [if_pos (show (!false) = true from rfl), if_pos h]
    rfl
  · intro h
    simp only [mqttHandle]
    rw [if_pos (show (!false) = true from rfl), if_neg (by omega)]

/-- Claim C8, witness: no attempt at 4000 ms, one attempt at 5001 ms, and
after that failed attempt none again 3999 ms later. -/
theorem c8_reconnect_backoff_witness :
    (ulongSub 5001 0 > 5000 ∧ (mqttHandle false 0 5001 false).2 = true) ∧
    mqttHandle false 0 5001 false = ((false, 5001), true) ∧
    (ulongSub 4000 0 ≤ 5000 ∧ mqttHandle false 0 4000 true = ((false, 0), false)) ∧
    (ulongSub 9000 5001 ≤ 5000 ∧ (mqttHandle false 5001 9000 true).2 = false) :=
  ⟨⟨by decide, (c8_reconnect_backoff 0 5001 9000 false true).2.1 (by decide)⟩,
   (c8_reconnect_backoff 0 5001 9000 false true).2.2.1 (by decide) rfl,
   ⟨by decide, (c8_reconnect_backoff 0 4000 9000 true true).1 (by decide)⟩,
   ⟨by decide, (c8_reconnect_backoff 0 5001 9000 false true).2.2.2 (by decide)⟩⟩

/-- Claim C9: in a cycle with a completed, changed status, if both
`accessCodePrompt` and `writeReady` hold the sketch clears the prompt and
writes the configured access code exactly once; if `writeReady` is false no
write occurs and the prompt is left as it was (so it remains set for a later
cycle). -/
theorem c9_access_code (accessCode : String) (prompt writeReady : Bool) :
    (prompt = true → writeReady = true →
      accessCodeSection accessCode prompt writeReady =
        (false, [PanelWrite.code accessCode])) ∧
    (writeReady = false →
      accessCodeSection accessCode prompt writeReady = (prompt, [])) := by
  constructor
  · intro hp hw
    simp [accessCodeSection, hp, hw]
  · intro hw
    simp [accessCodeSection, hw]

/-- Claim C9, witness. -/
theorem c9_access_code_witness :
    ((true : Bool) = true ∧
      accessCodeSection "1234" true true = (false, [PanelWrite.code "1234"])) ∧
    ((false : Bool) = false ∧ accessCodeSection "1234" true false = (true, [])) :=
  ⟨⟨rfl, (c9_access_code "1234" true true).1 rfl rfl⟩,
   ⟨rfl, (c9_access_code "1234" true false).2 rfl⟩⟩

/-- Claim C10 (code bug): the fixed topic buffers are one byte too small.
`strcpy` + `strcat` of base topic, decimal index and NUL needs
`strlen(base) + digits + 1` bytes: 19 for `Partition1` against a declared
18, 14 for `Fire1` against 13, and 15 for `Zone10` against 14.  The
arithmetic bound claimed (`needed <= declared`) fails. -/
theorem c10_topic_buffer_overflow :
    topicBytesNeeded mqttPartitionTopic 1 = 19 ∧ declaredPartitionTopicBuf = 18 ∧
    topicBytesNeeded mqttFireTopic 1 = 14 ∧ declaredFireTopicBuf = 13 ∧
    topicBytesNeeded mqttZoneTopic 10 = 15 ∧ declaredZoneTopicBuf = 14 ∧
    topicBytesNeeded mqttZoneTopic 9 = 14 ∧
    ¬topicBytesNeeded mqttPartitionTopic 1 ≤ declaredPartitionTopicBuf ∧
    ¬topicBytesNeeded mqttFireTopic 1 ≤ declaredFireTopicBuf ∧
    ¬topicBytesNeeded mqttZoneTopic 10 ≤ declaredZoneTopicBuf := by
  refine ⟨by decide, by decide, by decide, by decide, by decide, by decide, by decide,
    by decide, by decide, by decide⟩

end DscMqtt
